import Mathlib

/-
  Verification of the Simple-Email repository (server.py / client.py).

  The Python source is shallowly embedded: each handler method of
  `EmailServer` and each cache operation of `EmailClient` becomes a pure
  Lean function over an explicit state record.  Python's mutable `self`
  becomes explicit state passing; the on-disk JSON snapshot written by
  `save_server_data` becomes an in-state log of snapshots; `datetime.now()`
  becomes an explicit `now : String` parameter; Python exceptions raised
  inside a handler's `try` block become `Except String` values that the
  handler renders as `ERROR|<message>`, mirroring the `except` clause.
-/

/-! ## Python string primitives

All delimiters used by the source (`|`, `~`, `;`) are single characters,
so Python's `str.split`, `str.replace` and `str.rstrip` are modelled at
single-character granularity, over the string's character list. -/

/-- Python `s.split(sep)` for a single-character separator, on char lists:
`split('|', "a|b") = ["a","b"]`, `split('|', "") = [""]`. -/
def splitChar (sep : Char) : List Char → List (List Char)
  | [] => [[]]
  | c :: cs =>
    match splitChar sep cs with
    | [] => [[]]
    | h :: t => if c = sep then [] :: h :: t else (c :: h) :: t

/-- Inverse of `splitChar`: re-joins pieces with the separator. -/
def joinChar (sep : Char) : List (List Char) → List Char
  | [] => []
  | [l] => l
  | l :: ls => l ++ sep :: joinChar sep ls

/-- Python `s.split(sep)` (unbounded) for a one-character separator. -/
def pySplit (s : String) (sep : Char) : List String :=
  (splitChar sep s.data).map String.mk

/-- Python `s.split(sep, maxsplit)`: at most `maxsplit` splits are made,
the remainder (which may still contain the separator) is kept whole as
the last field. -/
def pySplitN (s : String) (sep : Char) (maxsplit : Nat) : List String :=
  let parts := splitChar sep s.data
  if parts.length ≤ maxsplit + 1 then parts.map String.mk
  else (parts.take maxsplit).map String.mk
       ++ [String.mk (joinChar sep (parts.drop maxsplit))]

/-- Python `s.replace(old, new)` where `old` and `new` are single
characters (the only form the source uses). -/
def pyReplaceChar (old new : Char) (s : String) : String :=
  String.mk (s.data.map fun c => if c = old then new else c)

/-- Python `s.rstrip(a)` for a single character: drops every trailing `a`. -/
def rstripChar (a : Char) (s : String) : String :=
  String.mk ((s.data.reverse.dropWhile fun c => c = a).reverse)

/-- Value of a nonempty all-digit character list, read in base 10. -/
def natOfChars (cs : List Char) : Option Nat :=
  if cs ≠ [] ∧ cs.all (·.isDigit) then
    some (cs.foldl (fun a c => a * 10 + (c.toNat - 48)) 0)
  else none

/-- Python `s.startswith(pre)`. -/
def pyStartsWith (s pre : String) : Bool :=
  pre.data.isPrefixOf s.data

/-- Python `int(s)` on a decimal literal (optionally `-`-signed digit
string, the only shapes the protocol carries); raises `ValueError`
otherwise (the error value carries the rendered exception message). -/
def pyInt (s : String) : Except String Int :=
  let parsed : Option Int :=
    match s.data with
    | '-' :: rest => (natOfChars rest).map fun n => -(n : Int)
    | l => (natOfChars l).map fun n => (n : Int)
  match parsed with
  | some n => .ok n
  | none => .error ("invalid literal for int() with base 10: '" ++ s ++ "'")

/-! ## Wire codec (the `receive` helper of server.py and client.py)

`receive` reads a length header, then loops
`while len(buf) < size: buf = channel.recv(size - len(buf))`.
The channel is modelled as the list of chunks in which the frame body
arrives (each `recv` yields at most the next pending chunk); an exhausted
channel yields the empty chunk, as `recv` does after the peer closes.
The loop is given fuel because, as written, it need not terminate. -/

/-- One `channel.recv(n)` call: returns up to `n` bytes from the front of
the pending chunk list; surplus bytes of a chunk stay buffered. -/
def recvOnce (n : Nat) : List (List Nat) → List Nat × List (List Nat)
  | [] => ([], [])
  | c :: rest => if c.length ≤ n then (c, rest) else (c.take n, c.drop n :: rest)

/-- The body-reading loop of `receive` (server.py lines 29-31, client.py
lines 28-30).  Faithful to the source, each iteration REPLACES `buf` with
the newly received bytes (`buf = channel.recv(size - len(buf))`) instead
of appending them.  Returns `none` when the fuel runs out before
`len(buf) >= size`. -/
def receiveLoop : Nat → Nat → List Nat → List (List Nat) → Option (List Nat)
  | 0, _, _, _ => none
  | fuel + 1, size, buf, chunks =>
    if buf.length < size then
      let r := recvOnce (size - buf.length) chunks
      receiveLoop fuel size r.1 r.2
    else some buf

/-! ## Server data model (EmailServer of server.py)

`self.users` is a dict `{username: password}` (insertion-ordered, keys
unique — REGISTER refuses existing keys), modelled as an association
list; `self.emails` is a list of email dicts; `self.email_id_counter` a
Python int.  `save_server_data` writes `{users, emails, email_id_counter}`
to `server_db.json`; the durability sink is modelled as `saveLog`, the
list of snapshots written so far (newest first). -/

structure Email where
  id : Int
  «from» : String
  «to» : String
  subject : String
  body : String
  timestamp : String
  read : Bool
deriving Repr, DecidableEq

structure Snapshot where
  users : List (String × String)
  emails : List Email
  email_id_counter : Int
deriving Repr, DecidableEq

structure ServerState where
  users : List (String × String)
  emails : List Email
  email_id_counter : Int
  /-- number of connected clients (`self.clients`), read by STATUS -/
  clients : Nat
  /-- snapshots written by `save_server_data`, newest first (durability sink) -/
  saveLog : List Snapshot
deriving Repr, DecidableEq

/-- The data that `save_server_data` serializes to `server_db.json`. -/
def snapshotOf (st : ServerState) : Snapshot :=
  ⟨st.users, st.emails, st.email_id_counter⟩

/-- `save_server_data` (server.py lines 70-82): whole-store snapshot write. -/
def save_server_data (st : ServerState) : ServerState :=
  { st with saveLog := snapshotOf st :: st.saveLog }

/-- Python `username in self.users` (dict key membership). -/
def userExists (users : List (String × String)) (u : String) : Bool :=
  (users.lookup u).isSome

/-- In-place `email['read'] = True` on the first stored email with the
given id (the one `next((e for e in self.emails if e['id'] == msg_id), None)`
finds). -/
def markRead (i : Int) : List Email → List Email
  | [] => []
  | e :: rest =>
    if e.id = i then { e with read := true } :: rest else e :: markRead i rest

/-- `self.emails.remove(email)` where `email` is the first stored email
with the given id: `list.remove` drops the first element equal to it, and
since equal email dicts share their id, that first equal element is the
found one itself. -/
def removeFirstId (i : Int) : List Email → List Email
  | [] => []
  | e :: rest => if e.id = i then rest else e :: removeFirstId i rest

/-- `handle_register` (server.py lines 108-125): `REGISTER|username|password`,
split with maxsplit 2. -/
def handle_register (data : String) (st : ServerState) : ServerState × String :=
  match pySplitN data '|' 2 with
  | [_, username, password] =>
    if userExists st.users username then
      (st, "ERROR|Username already exists")
    else
      let st2 := { st with users := st.users ++ [(username, password)] }
      (save_server_data st2, "OK|User " ++ username ++ " registered successfully")
  | _ => (st, "ERROR|Invalid REGISTER format")

/-- `handle_login` (server.py lines 127-145): `LOGIN|username|password`,
split unbounded, exactly 3 fields required. -/
def handle_login (data : String) (st : ServerState) : ServerState × String :=
  match pySplit data '|' with
  | [_, username, password] =>
    match st.users.lookup username with
    | none => (st, "ERROR|Username not found")
    | some pw =>
      if pw ≠ password then (st, "ERROR|Invalid password")
      else (st, "OK|Welcome " ++ username ++ "!")
  | _ => (st, "ERROR|Invalid LOGIN format")

/-- `handle_send` (server.py lines 147-176): `SEND|from|to|subject|body`,
split with maxsplit 4 so the body keeps any `|` it contains. -/
def handle_send (data now : String) (st : ServerState) : ServerState × String :=
  match pySplitN data '|' 4 with
  | [_, sender, recipient, subject, body] =>
    if !(userExists st.users recipient) then
      (st, "ERROR|Recipient not found")
    else
      let newId := st.email_id_counter + 1
      let email : Email := ⟨newId, sender, recipient, subject, body, now, false⟩
      let st2 := { st with email_id_counter := newId, emails := st.emails ++ [email] }
      (save_server_data st2, "OK|Email sent to " ++ recipient)
  | _ => (st, "ERROR|Invalid SEND format (need: SEND|from|to|subject|body)")

/-- One `id~from~subject~timestamp~STATUS` inbox listing entry
(the f-string of server.py line 195, without its trailing `;`). -/
def inboxEntryStr (e : Email) : String :=
  toString e.id ++ "~" ++ e.«from» ++ "~" ++ e.subject ++ "~" ++ e.timestamp
    ++ "~" ++ (if e.read then "READ" else "UNREAD")

/-- `handle_inbox` (server.py lines 178-202): `INBOX|username`. -/
def handle_inbox (data : String) (st : ServerState) : ServerState × String :=
  match pySplit data '|' with
  | [_, username] =>
    let inbox := st.emails.filter fun e => e.«to» == username
    if inbox.isEmpty then (st, "EMPTY|No emails in inbox")
    else
      let response := inbox.foldl (fun acc e => acc ++ (inboxEntryStr e ++ ";"))
        ("OK|" ++ toString inbox.length ++ "|")
      (st, rstripChar ';' response)
  | _ => (st, "ERROR|Invalid INBOX format")

/-- One `id~to~subject~timestamp` sent listing entry (server.py line 220,
without its trailing `;`). -/
def sentEntryStr (e : Email) : String :=
  toString e.id ++ "~" ++ e.«to» ++ "~" ++ e.subject ++ "~" ++ e.timestamp

/-- `handle_sent` (server.py lines 204-227): `SENT|username`. -/
def handle_sent (data : String) (st : ServerState) : ServerState × String :=
  match pySplit data '|' with
  | [_, username] =>
    let sent := st.emails.filter fun e => e.«from» == username
    if sent.isEmpty then (st, "EMPTY|No sent emails")
    else
      let response := sent.foldl (fun acc e => acc ++ (sentEntryStr e ++ ";"))
        ("OK|" ++ toString sent.length ++ "|")
      (st, rstripChar ';' response)
  | _ => (st, "ERROR|Invalid SENT format")

/-- `handle_read` (server.py lines 229-260): `READ|username|msg_id`.
Access for sender or recipient; only a recipient read flips the flag
(and saves a snapshot). -/
def handle_read (data : String) (st : ServerState) : ServerState × String :=
  match pySplit data '|' with
  | [_, username, msg_id_str] =>
    match pyInt msg_id_str with
    | .error e => (st, "ERROR|" ++ e)
    | .ok msg_id =>
      match st.emails.find? (fun e => e.id == msg_id) with
      | none => (st, "ERROR|Email not found")
      | some email =>
        if email.«to» ≠ username ∧ email.«from» ≠ username then
          (st, "ERROR|Access denied")
        else
          let st2 :=
            if email.«to» = username then
              save_server_data { st with emails := markRead msg_id st.emails }
            else st
          (st2, "OK|" ++ toString email.id ++ "|" ++ email.«from» ++ "|"
            ++ email.«to» ++ "|" ++ email.subject ++ "|" ++ email.body ++ "|"
            ++ email.timestamp)
  | _ => (st, "ERROR|Invalid READ format")

/-- `handle_delete` (server.py lines 262-288): `DELETE|username|msg_id`. -/
def handle_delete (data : String) (st : ServerState) : ServerState × String :=
  match pySplit data '|' with
  | [_, username, msg_id_str] =>
    match pyInt msg_id_str with
    | .error e => (st, "ERROR|" ++ e)
    | .ok msg_id =>
      match st.emails.find? (fun e => e.id == msg_id) with
      | none => (st, "ERROR|Email not found")
      | some email =>
        if email.«to» ≠ username ∧ email.«from» ≠ username then
          (st, "ERROR|Access denied")
        else
          let st2 := save_server_data { st with emails := removeFirstId msg_id st.emails }
          (st2, "OK|Email #" ++ toString msg_id ++ " deleted")
  | _ => (st, "ERROR|Invalid DELETE format")

/-- `handle_forward` (server.py lines 290-330):
`FORWARD|username|msg_id|new_recipient`.  Note that, unlike every other
mutating handler, the source appends the forwarded email and returns
without calling `save_server_data`. -/
def handle_forward (data now : String) (st : ServerState) : ServerState × String :=
  match pySplit data '|' with
  | [_, username, msg_id_str, new_recipient] =>
    match pyInt msg_id_str with
    | .error e => (st, "ERROR|" ++ e)
    | .ok msg_id =>
      match st.emails.find? (fun e => e.id == msg_id) with
      | none => (st, "ERROR|Email not found")
      | some original =>
        if original.«to» ≠ username ∧ original.«from» ≠ username then
          (st, "ERROR|Access denied")
        else if !(userExists st.users new_recipient) then
          (st, "ERROR|Recipient not found")
        else
          let newId := st.email_id_counter + 1
          let forwarded : Email :=
            ⟨newId, username, new_recipient,
             "FWD: " ++ original.subject,
             "[Forwarded from " ++ original.«from» ++ "]\n\n" ++ original.body,
             now, false⟩
          ({ st with email_id_counter := newId, emails := st.emails ++ [forwarded] },
           "OK|Email forwarded to " ++ new_recipient)
  | _ => (st, "ERROR|Invalid FORWARD format")

/-- `handle_export` (server.py lines 332-365): `EXPORT|username|msg_id`. -/
def handle_export (data : String) (st : ServerState) : ServerState × String :=
  match pySplit data '|' with
  | [_, username, msg_id_str] =>
    match pyInt msg_id_str with
    | .error e => (st, "ERROR|" ++ e)
    | .ok msg_id =>
      match st.emails.find? (fun e => e.id == msg_id) with
      | none => (st, "ERROR|Email not found")
      | some email =>
        if email.«to» ≠ username ∧ email.«from» ≠ username then
          (st, "ERROR|Access denied")
        else
          let filename := "email_" ++ toString msg_id ++ "_" ++ username ++ ".txt"
          let content := "From: " ++ email.«from» ++ "\nTo: " ++ email.«to»
            ++ "\nSubject: " ++ email.subject ++ "\nDate: " ++ email.timestamp
            ++ "\n\n" ++ email.body ++ "\n"
          (st, "OK|Email exported to " ++ filename ++ "|" ++ content)
  | _ => (st, "ERROR|Invalid EXPORT format")

/-- `handle_status` (server.py lines 367-385): per-user stats on exactly
2 fields, global stats on any other field count. -/
def handle_status (data : String) (st : ServerState) : ServerState × String :=
  match pySplit data '|' with
  | [_, username] =>
    let total_inbox := (st.emails.filter fun e => e.«to» == username).length
    let unread := (st.emails.filter fun e => e.«to» == username && !e.read).length
    let total_sent := (st.emails.filter fun e => e.«from» == username).length
    (st, "OK|Inbox: " ++ toString total_inbox ++ " (" ++ toString unread
      ++ " unread)|Sent: " ++ toString total_sent)
  | _ =>
    (st, "OK|Users: " ++ toString st.users.length ++ "|Emails: "
      ++ toString st.emails.length ++ "|Active Clients: " ++ toString st.clients)

/-- `process_command` (server.py lines 387-411): dispatch on the first
`|`-delimited token. -/
def process_command (data now : String) (st : ServerState) : ServerState × String :=
  if data = "" then (st, "ERROR|Empty command")
  else
    let command := (pySplit data '|').headD ""
    if command = "REGISTER" then handle_register data st
    else if command = "LOGIN" then handle_login data st
    else if command = "SEND" then handle_send data now st
    else if command = "INBOX" then handle_inbox data st
    else if command = "SENT" then handle_sent data st
    else if command = "READ" then handle_read data st
    else if command = "DELETE" then handle_delete data st
    else if command = "FORWARD" then handle_forward data now st
    else if command = "EXPORT" then handle_export data st
    else if command = "STATUS" then handle_status data st
    else (st, "ERROR|Unknown command '" ++ command ++ "'")

/-- Fresh server start (no `server_db.json` present): empty users/emails,
counter 0. -/
def initialState : ServerState := ⟨[], [], 0, 0, []⟩

/-- Run a sequence of commands (each paired with its `datetime.now()`
string) through `process_command`. -/
def runCommands (st : ServerState) : List (String × String) → ServerState
  | [] => st
  | (data, now) :: rest => runCommands (process_command data now st).1 rest

/-! ## Client cache model (EmailClient of client.py)

`self.cache` is `{'inbox': [...], 'sent': [...], 'last_sync': ...}`;
entries are the summary dicts the sync parsers build.  The server
response consumed by a sync call is an explicit argument (it is whatever
`send_command` returned). -/

structure InboxEntry where
  id : String
  «from» : String
  subject : String
  timestamp : String
  read : Bool
deriving Repr, DecidableEq

structure SentEntry where
  id : String
  «to» : String
  subject : String
  timestamp : String
deriving Repr, DecidableEq

structure Cache where
  inbox : List InboxEntry
  sent : List SentEntry
  last_sync : Option String
deriving Repr, DecidableEq

/-- The entry-parsing loop of `sync_inbox` (client.py lines 200-212):
split the payload on `;`, skip blank pieces, keep pieces with at least 5
`~`-fields. -/
def parseInboxEntries (emails_data : String) : List InboxEntry :=
  (pySplit emails_data ';').filterMap fun email_str =>
    if email_str.trim = "" then none
    else
      match pySplit email_str '~' with
      | p0 :: p1 :: p2 :: p3 :: p4 :: _ => some ⟨p0, p1, p2, p3, p4 = "READ"⟩
      | _ => none

/-- The entry-parsing loop of `sync_sent` (client.py lines 234-245):
pieces with at least 4 `~`-fields are kept. -/
def parseSentEntries (emails_data : String) : List SentEntry :=
  (pySplit emails_data ';').filterMap fun email_str =>
    if email_str.trim = "" then none
    else
      match pySplit email_str '~' with
      | p0 :: p1 :: p2 :: p3 :: _ => some ⟨p0, p1, p2, p3⟩
      | _ => none

/-- `sync_inbox` (client.py lines 182-216), given the response
`send_command` returned and the current `datetime.now()` string; returns
the updated cache and the list the call returns. -/
def sync_inbox (response now : String) (cache : Cache) : Cache × List InboxEntry :=
  if pyStartsWith response "EMPTY" then
    ({ cache with inbox := [], last_sync := some now }, [])
  else if !(pyStartsWith response "OK") then
    (cache, cache.inbox)
  else
    match pySplitN response '|' 2 with
    | [_, _, emails_data] =>
      let emails := parseInboxEntries emails_data
      ({ cache with inbox := emails, last_sync := some now }, emails)
    | _ => (cache, [])

/-- `sync_sent` (client.py lines 218-248). -/
def sync_sent (response : String) (cache : Cache) : Cache × List SentEntry :=
  if pyStartsWith response "EMPTY" then
    ({ cache with sent := [] }, [])
  else if !(pyStartsWith response "OK") then
    (cache, cache.sent)
  else
    match pySplitN response '|' 2 with
    | [_, _, emails_data] =>
      let emails := parseSentEntries emails_data
      ({ cache with sent := emails }, emails)
    | _ => (cache, [])

/-- The subject sanitization of `compose_email` (client.py line 356):
`subject.replace("|", "-").replace("~", "-").replace(";", ",")`. -/
def sanitizeSubjectCompose (subject : String) : String :=
  pyReplaceChar ';' ',' (pyReplaceChar '~' '-' (pyReplaceChar '|' '-' subject))

/-- The subject sanitization of `resume_draft` (client.py line 662):
`subject.replace("|", "-").replace("~", "-")` — no `;` replacement. -/
def sanitizeSubjectResume (subject : String) : String :=
  pyReplaceChar '~' '-' (pyReplaceChar '|' '-' subject)

/-! ## Lemmas about the string primitives -/

theorem splitChar_ne_nil (sep : Char) (l : List Char) : splitChar sep l ≠ [] := by
  cases l with
  | nil => simp [splitChar]
  | cons c cs =>
    simp only [splitChar]
    cases h : splitChar sep cs with
    | nil => simp
    | cons h t =>
      by_cases hc : c = sep <;> simp [hc]

theorem splitChar_cons_of_ne (sep c : Char) (cs : List Char) (hc : c ≠ sep) :
    splitChar sep (c :: cs) =
      ((splitChar sep cs).headD []).cons c :: (splitChar sep cs).tail := by
  simp only [splitChar]
  cases h : splitChar sep cs with
  | nil => exact absurd h (splitChar_ne_nil sep cs)
  | cons hd tl => simp [hc]

theorem splitChar_cons_of_eq (sep : Char) (cs : List Char) :
    splitChar sep (sep :: cs) = [] :: splitChar sep cs := by
  simp only [splitChar]
  cases h : splitChar sep cs with
  | nil => exact absurd h (splitChar_ne_nil sep cs)
  | cons hd tl => simp

theorem splitChar_of_not_mem (sep : Char) (l : List Char) (h : sep ∉ l) :
    splitChar sep l = [l] := by
  induction l with
  | nil => simp [splitChar]
  | cons c cs ih =>
    rw [List.mem_cons, not_or] at h
    rw [splitChar_cons_of_ne sep c cs (fun hc => h.1 hc.symm), ih h.2]
    simp

theorem splitChar_append_sep (sep : Char) (l₁ l₂ : List Char) (h : sep ∉ l₁) :
    splitChar sep (l₁ ++ sep :: l₂) = l₁ :: splitChar sep l₂ := by
  induction l₁ with
  | nil => simpa using splitChar_cons_of_eq sep l₂
  | cons c cs ih =>
    rw [List.mem_cons, not_or] at h
    rw [List.cons_append, splitChar_cons_of_ne sep c _ (fun hc => h.1 hc.symm),
      ih h.2]
    simp

theorem joinChar_splitChar (sep : Char) (l : List Char) :
    joinChar sep (splitChar sep l) = l := by
  induction l with
  | nil => simp [splitChar, joinChar]
  | cons c cs ih =>
    by_cases hc : c = sep
    · subst hc
      rw [splitChar_cons_of_eq]
      cases h : splitChar c cs with
      | nil => exact absurd h (splitChar_ne_nil c cs)
      | cons hd tl =>
        rw [h] at ih
        simp [joinChar, ih]
    · rw [splitChar_cons_of_ne sep c cs hc]
      cases h : splitChar sep cs with
      | nil => exact absurd h (splitChar_ne_nil sep cs)
      | cons hd tl =>
        rw [h] at ih
        cases tl with
        | nil => simpa [joinChar] using ih
        | cons x xs => simpa [joinChar] using ih

theorem two_le_splitChar_length (sep : Char) (l : List Char) (h : sep ∈ l) :
    2 ≤ (splitChar sep l).length := by
  induction l with
  | nil => simp at h
  | cons c cs ih =>
    by_cases hc : c = sep
    · rw [hc, splitChar_cons_of_eq]
      cases hs : splitChar sep cs with
      | nil => exact absurd hs (splitChar_ne_nil sep cs)
      | cons hd tl => simp
    · have hmem : sep ∈ cs := by
        rcases List.mem_cons.mp h with h1 | h2
        · exact absurd h1.symm hc
        · exact h2
      rw [splitChar_cons_of_ne sep c cs hc]
      have h2 := ih hmem
      cases hs : splitChar sep cs with
      | nil => exact absurd hs (splitChar_ne_nil sep cs)
      | cons hd tl =>
        rw [hs] at h2
        simp at h2 ⊢
        omega

theorem splitChar_headD_append (sep : Char) (l₁ l₂ : List Char) (h : sep ∈ l₁) :
    (splitChar sep (l₁ ++ l₂)).headD [] = (splitChar sep l₁).headD [] := by
  induction l₁ with
  | nil => simp at h
  | cons c cs ih =>
    by_cases hc : c = sep
    · subst hc
      rw [List.cons_append, splitChar_cons_of_eq, splitChar_cons_of_eq]
      simp
    · have hmem : sep ∈ cs := by
        rcases List.mem_cons.mp h with h1 | h2
        · exact absurd h1.symm hc
        · exact h2
      rw [List.cons_append, splitChar_cons_of_ne sep c _ hc,
        splitChar_cons_of_ne sep c _ hc]
      simp only [List.headD_cons, List.cons.injEq, ih hmem, and_self]

theorem string_mk_data (s : String) : String.mk s.data = s := rfl

theorem map_mk_headD (l : List (List Char)) :
    (l.map String.mk).headD "" = String.mk (l.headD []) := by
  cases l <;> rfl

/-- The first `|`-delimited token of a response (what
`data.split("|")[0]` yields and callers branch on). -/
def firstTok (s : String) : String :=
  (pySplit s '|').headD ""

/-- A structurally well-formed response: its first token is `OK`,
`ERROR` or `EMPTY` (spec §4.3). -/
def GoodResp (s : String) : Prop :=
  firstTok s = "OK" ∨ firstTok s = "ERROR" ∨ firstTok s = "EMPTY"

theorem firstTok_append (s x : String) (h : '|' ∈ s.data) :
    firstTok (s ++ x) = firstTok s := by
  unfold firstTok pySplit
  rw [String.data_append, map_mk_headD, map_mk_headD,
    splitChar_headD_append '|' s.data x.data h]

/-- Responses whose first token is already forced to `OK` by a `|` they
contain; stable under appending further text. -/
def TokOK (s : String) : Prop := firstTok s = "OK" ∧ '|' ∈ s.data

theorem TokOK.appendR {s : String} (h : TokOK s) (x : String) : TokOK (s ++ x) := by
  refine ⟨?_, ?_⟩
  · rw [firstTok_append s x h.2, h.1]
  · rw [String.data_append]
    exact List.mem_append_left _ h.2

theorem TokOK.goodR {s : String} (h : TokOK s) : GoodResp s := Or.inl h.1

/-- Same for `ERROR` responses built as `"ERROR|" ++ message`. -/
def TokERROR (s : String) : Prop := firstTok s = "ERROR" ∧ '|' ∈ s.data

theorem TokERROR.appendE {s : String} (h : TokERROR s) (x : String) :
    TokERROR (s ++ x) := by
  refine ⟨?_, ?_⟩
  · rw [firstTok_append s x h.2, h.1]
  · rw [String.data_append]
    exact List.mem_append_left _ h.2

theorem TokERROR.goodE {s : String} (h : TokERROR s) : GoodResp s :=
  Or.inr (Or.inl h.1)

theorem firstTok_of_data_OK (s : String) (d : List Char)
    (h : s.data = 'O' :: 'K' :: '|' :: d) : firstTok s = "OK" := by
  unfold firstTok pySplit
  rw [map_mk_headD, h,
    show ('O' :: 'K' :: '|' :: d) = ['O', 'K'] ++ '|' :: d from rfl,
    splitChar_append_sep '|' ['O', 'K'] d (by decide)]
  rfl

/-- Accumulating string fold: the accumulator stays a prefix. -/
theorem foldl_append_acc (f : Email → String) (l : List Email) :
    ∀ acc : String, ∃ r, l.foldl (fun a e => a ++ (f e ++ ";")) acc = acc ++ r := by
  induction l with
  | nil =>
    intro acc
    exact ⟨"", by apply String.ext; simp [String.data_append]⟩
  | cons e rest ih =>
    intro acc
    obtain ⟨r, hr⟩ := ih (acc ++ (f e ++ ";"))
    exact ⟨(f e ++ ";") ++ r, by simp [List.foldl_cons, hr, String.append_assoc]⟩

/-- `rstrip(';')` cannot touch an `OK|` head. -/
theorem rstrip_data_OK (s : String) (d : List Char)
    (h : s.data = 'O' :: 'K' :: '|' :: d) :
    ∃ d2, (rstripChar ';' s).data = 'O' :: 'K' :: '|' :: d2 := by
  unfold rstripChar
  rw [h, show ('O' :: 'K' :: '|' :: d) = ['O', 'K', '|'] ++ d from rfl]
  rw [List.reverse_append, List.dropWhile_append]
  by_cases hemp : (d.reverse.dropWhile fun c => c = ';').isEmpty
  · refine ⟨[], ?_⟩
    simp [hemp]
  · refine ⟨(d.reverse.dropWhile fun c => c = ';').reverse, ?_⟩
    simp [hemp]

instance (s : String) : Decidable (GoodResp s) := by
  unfold GoodResp
  infer_instance

instance (s : String) : Decidable (TokOK s) := by
  unfold TokOK firstTok
  infer_instance

instance (s : String) : Decidable (TokERROR s) := by
  unfold TokERROR firstTok
  infer_instance

theorem good_register (d : String) (st : ServerState) :
    GoodResp (handle_register d st).2 := by
  simp only [handle_register]
  split
  · split
    · exact (by decide : GoodResp "ERROR|Username already exists")
    · exact (((by decide : TokOK "OK|User ").appendR _).appendR " registered successfully").goodR
  · exact (by decide : GoodResp "ERROR|Invalid REGISTER format")

theorem good_login (d : String) (st : ServerState) :
    GoodResp (handle_login d st).2 := by
  simp only [handle_login]
  split
  · split
    · exact (by decide : GoodResp "ERROR|Username not found")
    · split
      · exact (by decide : GoodResp "ERROR|Invalid password")
      · exact (((by decide : TokOK "OK|Welcome ").appendR _).appendR "!").goodR
  · exact (by decide : GoodResp "ERROR|Invalid LOGIN format")

theorem good_send (d now : String) (st : ServerState) :
    GoodResp (handle_send d now st).2 := by
  simp only [handle_send]
  split
  · split
    · exact (by decide : GoodResp "ERROR|Recipient not found")
    · exact ((by decide : TokOK "OK|Email sent to ").appendR _).goodR
  · exact (by decide : GoodResp "ERROR|Invalid SEND format (need: SEND|from|to|subject|body)")

theorem good_foldl_rstrip (f : Email → String) (l : List Email) (n : Nat) :
    GoodResp (rstripChar ';'
      (l.foldl (fun acc e => acc ++ (f e ++ ";")) ("OK|" ++ toString n ++ "|"))) := by
  obtain ⟨r, hr⟩ := foldl_append_acc f l ("OK|" ++ toString n ++ "|")
  rw [hr]
  obtain ⟨d2, hd2⟩ := rstrip_data_OK (("OK|" ++ toString n ++ "|") ++ r)
    ((toString n).data ++ '|' :: r.data) (by
      simp only [String.data_append, List.append_assoc]
      rfl)
  exact Or.inl (firstTok_of_data_OK _ d2 hd2)

theorem good_inbox (d : String) (st : ServerState) :
    GoodResp (handle_inbox d st).2 := by
  simp only [handle_inbox]
  split
  · split
    · exact (by decide : GoodResp "EMPTY|No emails in inbox")
    · exact good_foldl_rstrip inboxEntryStr _ _
  · exact (by decide : GoodResp "ERROR|Invalid INBOX format")

theorem good_sent (d : String) (st : ServerState) :
    GoodResp (handle_sent d st).2 := by
  simp only [handle_sent]
  split
  · split
    · exact (by decide : GoodResp "EMPTY|No sent emails")
    · exact good_foldl_rstrip sentEntryStr _ _
  · exact (by decide : GoodResp "ERROR|Invalid SENT format")

theorem good_read (d : String) (st : ServerState) :
    GoodResp (handle_read d st).2 := by
  simp only [handle_read]
  split
  · split
    · exact ((by decide : TokERROR "ERROR|").appendE _).goodE
    · split
      · exact (by decide : GoodResp "ERROR|Email not found")
      · split
        · exact (by decide : GoodResp "ERROR|Access denied")
        · exact ((((((((((((by decide : TokOK "OK|").appendR _).appendR "|").appendR _).appendR
            "|").appendR _).appendR "|").appendR _).appendR "|").appendR _).appendR "|").appendR _).goodR
  · exact (by decide : GoodResp "ERROR|Invalid READ format")

theorem good_delete (d : String) (st : ServerState) :
    GoodResp (handle_delete d st).2 := by
  simp only [handle_delete]
  split
  · split
    · exact ((by decide : TokERROR "ERROR|").appendE _).goodE
    · split
      · exact (by decide : GoodResp "ERROR|Email not found")
      · split
        · exact (by decide : GoodResp "ERROR|Access denied")
        · exact (((by decide : TokOK "OK|Email #").appendR _).appendR " deleted").goodR
  · exact (by decide : GoodResp "ERROR|Invalid DELETE format")

theorem good_forward (d now : String) (st : ServerState) :
    GoodResp (handle_forward d now st).2 := by
  simp only [handle_forward]
  split
  · split
    · exact ((by decide : TokERROR "ERROR|").appendE _).goodE
    · split
      · exact (by decide : GoodResp "ERROR|Email not found")
      · split
        · exact (by decide : GoodResp "ERROR|Access denied")
        · split
          · exact (by decide : GoodResp "ERROR|Recipient not found")
          · exact ((by decide : TokOK "OK|Email forwarded to ").appendR _).goodR
  · exact (by decide : GoodResp "ERROR|Invalid FORWARD format")

theorem good_export (d : String) (st : ServerState) :
    GoodResp (handle_export d st).2 := by
  simp only [handle_export]
  split
  · split
    · exact ((by decide : TokERROR "ERROR|").appendE _).goodE
    · split
      · exact (by decide : GoodResp "ERROR|Email not found")
      · split
        · exact (by decide : GoodResp "ERROR|Access denied")
        · exact (((((((by decide : TokOK "OK|Email exported to ").appendR
            _).appendR "_").appendR _).appendR ".txt").appendR "|").appendR _).goodR
  · exact (by decide : GoodResp "ERROR|Invalid EXPORT format")

theorem good_status (d : String) (st : ServerState) :
    GoodResp (handle_status d st).2 := by
  simp only [handle_status]
  split
  · exact (((((by decide : TokOK "OK|Inbox: ").appendR _).appendR " (").appendR _).appendR
      " unread)|Sent: ").appendR _ |>.goodR
  · exact (((((by decide : TokOK "OK|Users: ").appendR _).appendR "|Emails: ").appendR
      _).appendR "|Active Clients: ").appendR _ |>.goodR

set_option maxHeartbeats 2000000 in
theorem good_process (data now : String) (st : ServerState) :
    GoodResp (process_command data now st).2 := by
  simp only [process_command]
  split
  · exact (by decide : GoodResp "ERROR|Empty command")
  · split
    · exact good_register data st
    · split
      · exact good_login data st
      · split
        · exact good_send data now st
        · split
          · exact good_inbox data st
          · split
            · exact good_sent data st
            · split
              · exact good_read data st
              · split
                · exact good_delete data st
                · split
                  · exact good_forward data now st
                  · split
                    · exact good_export data st
                    · split
                      · exact good_status data st
                      · exact (((by decide : TokERROR
                          "ERROR|Unknown command '").appendE _).appendE "'").goodE

/-! ## How a command step can change the mailbox

Every handler either leaves `emails`/`email_id_counter` alone, flips one
read flag in place, removes one email, or appends one email carrying the
freshly incremented counter. -/

def EmailsEffect (st stp : ServerState) : Prop :=
  (stp.emails = st.emails ∧ stp.email_id_counter = st.email_id_counter) ∨
  (∃ j, stp.emails = markRead j st.emails ∧
    stp.email_id_counter = st.email_id_counter) ∨
  (∃ j, stp.emails = removeFirstId j st.emails ∧
    stp.email_id_counter = st.email_id_counter) ∨
  (∃ e, stp.emails = st.emails ++ [e] ∧ e.id = st.email_id_counter + 1 ∧
    stp.email_id_counter = st.email_id_counter + 1)

theorem effect_register (d : String) (st : ServerState) :
    EmailsEffect st (handle_register d st).1 := by
  simp only [handle_register]
  split
  · split
    · exact Or.inl ⟨rfl, rfl⟩
    · exact Or.inl ⟨rfl, rfl⟩
  · exact Or.inl ⟨rfl, rfl⟩

theorem effect_login (d : String) (st : ServerState) :
    EmailsEffect st (handle_login d st).1 := by
  simp only [handle_login]
  split
  · split
    · exact Or.inl ⟨rfl, rfl⟩
    · split
      · exact Or.inl ⟨rfl, rfl⟩
      · exact Or.inl ⟨rfl, rfl⟩
  · exact Or.inl ⟨rfl, rfl⟩

theorem effect_send (d now : String) (st : ServerState) :
    EmailsEffect st (handle_send d now st).1 := by
  simp only [handle_send]
  split
  · split
    · exact Or.inl ⟨rfl, rfl⟩
    · exact Or.inr (Or.inr (Or.inr ⟨_, rfl, rfl, rfl⟩))
  · exact Or.inl ⟨rfl, rfl⟩

theorem effect_inbox (d : String) (st : ServerState) :
    EmailsEffect st (handle_inbox d st).1 := by
  simp only [handle_inbox]
  split
  · split
    · exact Or.inl ⟨rfl, rfl⟩
    · exact Or.inl ⟨rfl, rfl⟩
  · exact Or.inl ⟨rfl, rfl⟩

theorem effect_sent (d : String) (st : ServerState) :
    EmailsEffect st (handle_sent d st).1 := by
  simp only [handle_sent]
  split
  · split
    · exact Or.inl ⟨rfl, rfl⟩
    · exact Or.inl ⟨rfl, rfl⟩
  · exact Or.inl ⟨rfl, rfl⟩

theorem effect_read (d : String) (st : ServerState) :
    EmailsEffect st (handle_read d st).1 := by
  simp only [handle_read]
  split
  · split
    · exact Or.inl ⟨rfl, rfl⟩
    · split
      · exact Or.inl ⟨rfl, rfl⟩
      · split
        · exact Or.inl ⟨rfl, rfl⟩
        · split
          · exact Or.inr (Or.inl ⟨_, rfl, rfl⟩)
          · exact Or.inl ⟨rfl, rfl⟩
  · exact Or.inl ⟨rfl, rfl⟩

theorem effect_delete (d : String) (st : ServerState) :
    EmailsEffect st (handle_delete d st).1 := by
  simp only [handle_delete]
  split
  · split
    · exact Or.inl ⟨rfl, rfl⟩
    · split
      · exact Or.inl ⟨rfl, rfl⟩
      · split
        · exact Or.inl ⟨rfl, rfl⟩
        · exact Or.inr (Or.inr (Or.inl ⟨_, rfl, rfl⟩))
  · exact Or.inl ⟨rfl, rfl⟩

theorem effect_forward (d now : String) (st : ServerState) :
    EmailsEffect st (handle_forward d now st).1 := by
  simp only [handle_forward]
  split
  · split
    · exact Or.inl ⟨rfl, rfl⟩
    · split
      · exact Or.inl ⟨rfl, rfl⟩
      · split
        · exact Or.inl ⟨rfl, rfl⟩
        · split
          · exact Or.inl ⟨rfl, rfl⟩
          · exact Or.inr (Or.inr (Or.inr ⟨_, rfl, rfl, rfl⟩))
  · exact Or.inl ⟨rfl, rfl⟩

theorem effect_export (d : String) (st : ServerState) :
    EmailsEffect st (handle_export d st).1 := by
  simp only [handle_export]
  split
  · split
    · exact Or.inl ⟨rfl, rfl⟩
    · split
      · exact Or.inl ⟨rfl, rfl⟩
      · split
        · exact Or.inl ⟨rfl, rfl⟩
        · exact Or.inl ⟨rfl, rfl⟩
  · exact Or.inl ⟨rfl, rfl⟩

theorem effect_status (d : String) (st : ServerState) :
    EmailsEffect st (handle_status d st).1 := by
  simp only [handle_status]
  split
  · exact Or.inl ⟨rfl, rfl⟩
  · exact Or.inl ⟨rfl, rfl⟩

set_option maxHeartbeats 2000000 in
theorem effect_process (data now : String) (st : ServerState) :
    EmailsEffect st (process_command data now st).1 := by
  simp only [process_command]
  split
  · exact Or.inl ⟨rfl, rfl⟩
  · split
    · exact effect_register data st
    · split
      · exact effect_login data st
      · split
        · exact effect_send data now st
        · split
          · exact effect_inbox data st
          · split
            · exact effect_sent data st
            · split
              · exact effect_read data st
              · split
                · exact effect_delete data st
                · split
                  · exact effect_forward data now st
                  · split
                    · exact effect_export data st
                    · split
                      · exact effect_status data st
                      · exact Or.inl ⟨rfl, rfl⟩

/-! ## Mailbox invariants -/

/-- The ids currently stored, in list (= creation) order. -/
def idsOf (st : ServerState) : List Int := st.emails.map Email.id

/-- Store invariant: stored ids strictly increase in creation order, and
none exceeds the id counter. -/
def MailInv (st : ServerState) : Prop :=
  List.Pairwise (· < ·) (idsOf st) ∧ ∀ e ∈ st.emails, e.id ≤ st.email_id_counter

theorem markRead_map_id (i : Int) (l : List Email) :
    (markRead i l).map Email.id = l.map Email.id := by
  induction l with
  | nil => rfl
  | cons e rest ih =>
    by_cases he : e.id = i <;> simp [markRead, he, ih]

theorem removeFirstId_sublist (i : Int) (l : List Email) :
    List.Sublist (removeFirstId i l) l := by
  induction l with
  | nil => exact List.Sublist.refl []
  | cons e rest ih =>
    by_cases he : e.id = i
    · simp only [removeFirstId, he, if_pos]
      exact List.sublist_cons_self e rest
    · simpa [removeFirstId, he] using List.Sublist.cons₂ e ih

theorem mem_markRead_id (i : Int) (l : List Email) (e' : Email)
    (h : e' ∈ markRead i l) : ∃ e ∈ l, e'.id = e.id := by
  have h2 : e'.id ∈ (markRead i l).map Email.id := List.mem_map_of_mem Email.id h
  rw [markRead_map_id] at h2
  obtain ⟨e, he, heq⟩ := List.mem_map.mp h2
  exact ⟨e, he, heq.symm⟩

theorem MailInv_step (data now : String) (st : ServerState) (h : MailInv st) :
    MailInv (process_command data now st).1 := by
  rcases effect_process data now st with
    ⟨he, hc⟩ | ⟨j, he, hc⟩ | ⟨j, he, hc⟩ | ⟨e, he, hid, hc⟩
  · exact ⟨by rw [idsOf, he]; exact h.1,
      fun e hme => by rw [hc]; exact h.2 e (he ▸ hme)⟩
  · refine ⟨by rw [idsOf, he, markRead_map_id]; exact h.1, fun e' hme => ?_⟩
    rw [he] at hme
    obtain ⟨e, hel, hideq⟩ := mem_markRead_id j st.emails e' hme
    rw [hc, hideq]
    exact h.2 e hel
  · refine ⟨?_, fun e' hme => ?_⟩
    · rw [idsOf, he]
      exact h.1.sublist (List.Sublist.map Email.id (removeFirstId_sublist j st.emails))
    · rw [he] at hme
      rw [hc]
      exact h.2 e' ((removeFirstId_sublist j st.emails).subset hme)
  · refine ⟨?_, fun e' hme => ?_⟩
    · rw [idsOf, he, List.map_append]
      refine List.pairwise_append.mpr ⟨h.1, List.pairwise_singleton _ _, ?_⟩
      intro a ha b hb
      simp only [List.map_cons, List.map_nil, List.mem_singleton] at hb
      obtain ⟨e0, he0, hida⟩ := List.mem_map.mp ha
      have := h.2 e0 he0
      rw [hb, hid]
      omega
    · rw [he] at hme
      rcases List.mem_append.mp hme with hold | hnew
    
      · have := h.2 e' hold
        rw [hc]
        omega
      · simp only [List.mem_singleton] at hnew
        rw [hnew, hid, hc]

theorem counter_le_step (data now : String) (st : ServerState) :
    st.email_id_counter ≤ (process_command data now st).1.email_id_counter := by
  rcases effect_process data now st with
    ⟨_, hc⟩ | ⟨j, _, hc⟩ | ⟨j, _, hc⟩ | ⟨e, _, _, hc⟩ <;> omega

theorem MailInv_run (cmds : List (String × String)) :
    ∀ st : ServerState, MailInv st → MailInv (runCommands st cmds) := by
  induction cmds with
  | nil => exact fun st h => h
  | cons c rest ih =>
    intro st h
    exact ih _ (MailInv_step c.1 c.2 st h)

theorem counter_le_run (cmds : List (String × String)) :
    ∀ st : ServerState, st.email_id_counter ≤ (runCommands st cmds).email_id_counter := by
  induction cmds with
  | nil => exact fun st => le_refl _
  | cons c rest ih =>
    intro st
    exact le_trans (counter_le_step c.1 c.2 st) (ih _)

theorem MailInv_initial : MailInv initialState := by
  constructor
  · simp [idsOf, initialState]
  · simp [initialState]

/-- Once an id is both absent from the store and at most the counter, no
later command can reintroduce it. -/
def NoId (i : Int) (st : ServerState) : Prop :=
  (∀ e ∈ st.emails, e.id ≠ i) ∧ i ≤ st.email_id_counter

theorem NoId_step (i : Int) (data now : String) (st : ServerState)
    (h : NoId i st) : NoId i (process_command data now st).1 := by
  have h2 := h.2
  rcases effect_process data now st with
    ⟨he, hc⟩ | ⟨j, he, hc⟩ | ⟨j, he, hc⟩ | ⟨e, he, hid, hc⟩
  · exact ⟨fun e hme => h.1 e (he ▸ hme), by omega⟩
  · refine ⟨fun e' hme => ?_, by omega⟩
    rw [he] at hme
    obtain ⟨e0, he0, hideq⟩ := mem_markRead_id j st.emails e' hme
    rw [hideq]
    exact h.1 e0 he0
  · refine ⟨fun e' hme => ?_, by omega⟩
    rw [he] at hme
    exact h.1 e' ((removeFirstId_sublist j st.emails).subset hme)
  · refine ⟨fun e' hme => ?_, by omega⟩
    rw [he] at hme
    rcases List.mem_append.mp hme with hold | hnew
    · exact h.1 e' hold
    · simp only [List.mem_singleton] at hnew
      rw [hnew, hid]
      omega

theorem NoId_run (i : Int) (cmds : List (String × String)) :
    ∀ st : ServerState, NoId i st → NoId i (runCommands st cmds) := by
  induction cmds with
  | nil => exact fun st h => h
  | cons c rest ih =>
    intro st h
    exact ih _ (NoId_step i c.1 c.2 st h)

theorem find?_eq_none_of_all_ne (i : Int) (l : List Email)
    (h : ∀ e ∈ l, e.id ≠ i) : l.find? (fun e => e.id == i) = none := by
  rw [List.find?_eq_none]
  intro e he
  simp only [beq_iff_eq]
  exact h e he

theorem removeFirstId_all_ne (i : Int) (l : List Email)
    (hp : List.Pairwise (· < ·) (l.map Email.id)) :
    ∀ e' ∈ removeFirstId i l, e'.id ≠ i := by
  induction l with
  | nil => simp [removeFirstId]
  | cons e rest ih =>
    rw [List.map_cons, List.pairwise_cons] at hp
    by_cases he : e.id = i
    · intro e' hme
      simp only [removeFirstId, he, if_pos] at hme
      have := hp.1 e'.id (List.mem_map_of_mem Email.id hme)
      omega
    · intro e' hme
      simp only [removeFirstId, he, if_neg, not_false_iff] at hme
      rcases List.mem_cons.mp hme with h1 | h2
      · rw [h1]; exact he
      · exact ih hp.2 e' h2

theorem find?_markRead (i : Int) (l : List Email) (m : Email)
    (h : l.find? (fun e => e.id == i) = some m) :
    (markRead i l).find? (fun e => e.id == i) = some { m with read := true } := by
  induction l with
  | nil => simp [List.find?] at h
  | cons e rest ih =>
    by_cases he : e.id = i
    · rw [List.find?_cons_of_pos _ (by simp [he])] at h
      injection h with hme
      subst hme
      simp only [markRead, he, if_pos]
      rw [List.find?_cons_of_pos _ (by simp [he])]
    · rw [List.find?_cons_of_neg _ (by simp [he])] at h
      simp only [markRead, he, if_neg, not_false_iff]
      rw [List.find?_cons_of_neg _ (by simp [he])]
      exact ih h

/-! ## Claim theorems -/

theorem receiveLoop_stuck_empty (size : Nat) :
    ∀ fuel (buf : List Nat), buf.length < size →
      receiveLoop fuel size buf [] = none := by
  intro fuel
  induction fuel with
  | zero => intro buf _; rfl
  | succ f ih =>
    intro buf hlt
    simp only [receiveLoop, recvOnce, if_pos hlt]
    exact ih [] (by simp; omega)

/-- C2: the claim fails on the code.  When the 2-byte frame body arrives
as two 1-byte partial reads, the `receive` loop (which REPLACES `buf`
with each `recv` result instead of appending) never accumulates the
announced number of bytes and never returns, for any amount of fuel;
the same body delivered in a single read is returned intact. -/
theorem receive_drops_split_frame_body :
    (∀ fuel, receiveLoop fuel 2 [] [[1], [2]] = none) ∧
    receiveLoop 2 2 [] [[1, 2]] = some [1, 2] := by
  constructor
  · intro fuel
    match fuel with
    | 0 => rfl
    | 1 => rfl
    | (g + 2) =>
      have h1 : receiveLoop (g + 2) 2 [] [[1], [2]] = receiveLoop g 2 [2] [] := by
        simp [receiveLoop, recvOnce]
      rw [h1]
      exact receiveLoop_stuck_empty 2 g [2] (by simp)
  · rfl

/-- C1: the claim fails on the code.  A successful FORWARD on a store
with one message and a registered recipient returns its OK response with
the store mutated (a new email appended) but with no snapshot written to
the durability sink — `handle_forward` is the one mutating handler that
never calls `save_server_data` before returning OK. -/
theorem forward_ok_without_snapshot_write :
    (process_command "FORWARD|bob|1|carol" "t5"
        (runCommands initialState
          [("REGISTER|alice|pw1", "t1"), ("REGISTER|bob|pw2", "t2"),
           ("REGISTER|carol|pw3", "t3"), ("SEND|alice|bob|Hi|Hello", "t4")])).2
      = "OK|Email forwarded to carol" ∧
    (process_command "FORWARD|bob|1|carol" "t5"
        (runCommands initialState
          [("REGISTER|alice|pw1", "t1"), ("REGISTER|bob|pw2", "t2"),
           ("REGISTER|carol|pw3", "t3"), ("SEND|alice|bob|Hi|Hello", "t4")])).1.emails
      ≠ (runCommands initialState
          [("REGISTER|alice|pw1", "t1"), ("REGISTER|bob|pw2", "t2"),
           ("REGISTER|carol|pw3", "t3"), ("SEND|alice|bob|Hi|Hello", "t4")]).emails ∧
    (process_command "FORWARD|bob|1|carol" "t5"
        (runCommands initialState
          [("REGISTER|alice|pw1", "t1"), ("REGISTER|bob|pw2", "t2"),
           ("REGISTER|carol|pw3", "t3"), ("SEND|alice|bob|Hi|Hello", "t4")])).1.saveLog
      = (runCommands initialState
          [("REGISTER|alice|pw1", "t1"), ("REGISTER|bob|pw2", "t2"),
           ("REGISTER|carol|pw3", "t3"), ("SEND|alice|bob|Hi|Hello", "t4")]).saveLog := by
  refine ⟨by decide, by decide, by decide⟩

/-- C9 counterexample: the client replaces `~` with `-` (not with `,` as
the claim states), and the `resume_draft` sanitization leaves `;`
untouched. -/
theorem sanitize_tilde_becomes_dash :
    sanitizeSubjectCompose "a~b" = "a-b" ∧
    sanitizeSubjectCompose "a~b" ≠ "a,b" ∧
    sanitizeSubjectResume "x;y" = "x;y" := by
  refine ⟨by decide, by decide, by decide⟩

theorem not_mem_replace_self (old new : Char) (h : old ≠ new) (s : String) :
    old ∉ (pyReplaceChar old new s).data := by
  intro hmem
  simp only [pyReplaceChar] at hmem
  obtain ⟨c, _, hc⟩ := List.mem_map.mp hmem
  by_cases hco : c = old
  · rw [if_pos hco] at hc
    exact h hc.symm
  · rw [if_neg hco] at hc
    exact hco hc

theorem not_mem_replace_other (c old new : Char) (s : String)
    (hc : c ∉ s.data) (hnew : c ≠ new) :
    c ∉ (pyReplaceChar old new s).data := by
  intro hmem
  simp only [pyReplaceChar] at hmem
  obtain ⟨x, hx, hxc⟩ := List.mem_map.mp hmem
  by_cases hxo : x = old
  · rw [if_pos hxo] at hxc
    exact hnew hxc.symm
  · rw [if_neg hxo] at hxc
    exact hc (hxc ▸ hx)

/-- C9 (amended): `compose_email` replaces `|` and `~` with `-` and `;`
with `,`, so the transmitted subject contains none of the three
delimiters; `resume_draft` replaces only `|` and `~` (with `-`) and may
leave `;` in place; and the server's inbox listing entry for a message
whose subject was compose-sanitized splits on `~` into exactly the 5
expected fields. -/
theorem subject_sanitization_amended (s : String) :
    ('|' ∉ (sanitizeSubjectCompose s).data ∧
      '~' ∉ (sanitizeSubjectCompose s).data ∧
      ';' ∉ (sanitizeSubjectCompose s).data) ∧
    ('|' ∉ (sanitizeSubjectResume s).data ∧
      '~' ∉ (sanitizeSubjectResume s).data) ∧
    (∀ e : Email, e.subject = sanitizeSubjectCompose s →
      '~' ∉ (toString e.id).data → '~' ∉ e.«from».data → '~' ∉ e.timestamp.data →
      pySplit (inboxEntryStr e) '~' =
        [toString e.id, e.«from», e.subject, e.timestamp,
         if e.read then "READ" else "UNREAD"]) := by
  have hpipe : '|' ∉ (sanitizeSubjectCompose s).data :=
    not_mem_replace_other _ _ _ _
      (not_mem_replace_other _ _ _ _
        (not_mem_replace_self '|' '-' (by decide) s) (by decide)) (by decide)
  have htilde : '~' ∉ (sanitizeSubjectCompose s).data :=
    not_mem_replace_other _ _ _ _
      (not_mem_replace_self '~' '-' (by decide) _) (by decide)
  have hsemi : ';' ∉ (sanitizeSubjectCompose s).data :=
    not_mem_replace_self ';' ',' (by decide) _
  refine ⟨⟨hpipe, htilde, hsemi⟩, ⟨?_, ?_⟩, ?_⟩
  · exact not_mem_replace_other _ _ _ _
      (not_mem_replace_self '|' '-' (by decide) s) (by decide)
  · exact not_mem_replace_self '~' '-' (by decide) _
  · intro e hsubj hid hfrom hts
    have hsub : '~' ∉ e.subject.data := by rw [hsubj]; exact htilde
    have hstat : '~' ∉ (if e.read then "READ" else "UNREAD").data := by
      cases e.read <;> decide
    have hdata : (inboxEntryStr e).data =
        (toString e.id).data ++ '~' :: (e.«from».data ++ '~' :: (e.subject.data
          ++ '~' :: (e.timestamp.data ++ '~'
            :: (if e.read then "READ" else "UNREAD").data))) := by
      simp only [inboxEntryStr, String.data_append, List.append_assoc]
      rfl
    rw [pySplit, hdata, splitChar_append_sep _ _ _ hid,
      splitChar_append_sep _ _ _ hfrom, splitChar_append_sep _ _ _ hsub,
      splitChar_append_sep _ _ _ hts, splitChar_of_not_mem _ _ hstat]
    simp only [List.map_cons, List.map_nil, string_mk_data]

/-- Witness for C9 (amended) at the concrete subject `a~b;c|d`. -/
theorem subject_sanitization_amended_witness :
    pySplit (inboxEntryStr ⟨3, "alice", "bob", sanitizeSubjectCompose "a~b;c|d",
        "body", "t9", false⟩) '~' =
      ["3", "alice", "a-b,c-d", "t9", "UNREAD"] := by
  have h := (subject_sanitization_amended "a~b;c|d").2.2
    ⟨3, "alice", "bob", sanitizeSubjectCompose "a~b;c|d", "body", "t9", false⟩
    rfl (by decide) (by decide) (by decide)
  rw [h]
  decide

/-- C5 counterexample: `sync_inbox` on the OK-prefixed response
`"OK|done"` (fewer than three `|`-fields, e.g. the shape of
`OK|Email sent to bob`) does not replace the cached inbox with any parse
of the response: two different prior caches yield two different
post-call caches, the prior cache surviving untouched, while the call
returns `[]` rather than the cache. -/
theorem sync_inbox_ok_short_response_not_replaced :
    pyStartsWith "OK|done" "OK" = true ∧
    (sync_inbox "OK|done" "t1"
        ⟨[⟨"9", "mallory", "old", "t0", false⟩], [], none⟩).1.inbox
      = [⟨"9", "mallory", "old", "t0", false⟩] ∧
    (sync_inbox "OK|done" "t1" ⟨[], [], none⟩).1.inbox = [] ∧
    (sync_inbox "OK|done" "t1"
        ⟨[⟨"9", "mallory", "old", "t0", false⟩], [], none⟩).1.inbox
      ≠ (sync_inbox "OK|done" "t1" ⟨[], [], none⟩).1.inbox ∧
    (sync_inbox "OK|done" "t1"
        ⟨[⟨"9", "mallory", "old", "t0", false⟩], [], none⟩).2 = [] := by
  refine ⟨by decide, by decide, by decide, by decide, by decide⟩

/-- C5 (amended): sync is full-replace with stale fallback, except that
an OK response with fewer than three `|`-fields leaves the cache
untouched and returns `[]`.  On `EMPTY` the cached list is replaced by
`[]`; on a non-`OK`, non-`EMPTY` response the cache is untouched and is
what the call returns; on an OK response with at least three fields the
cached list is replaced by the parsed payload, which is returned. -/
theorem sync_full_replace_with_stale_fallback (resp now : String) (c : Cache) :
    (pyStartsWith resp "EMPTY" = true →
      sync_inbox resp now c = ({ c with inbox := [], last_sync := some now }, []) ∧
      sync_sent resp c = ({ c with sent := [] }, [])) ∧
    (pyStartsWith resp "EMPTY" = false → pyStartsWith resp "OK" = false →
      sync_inbox resp now c = (c, c.inbox) ∧
      sync_sent resp c = (c, c.sent)) ∧
    (pyStartsWith resp "EMPTY" = false → pyStartsWith resp "OK" = true →
      (∀ a b pl, pySplitN resp '|' 2 = [a, b, pl] →
        sync_inbox resp now c =
          ({ c with inbox := parseInboxEntries pl, last_sync := some now },
           parseInboxEntries pl) ∧
        sync_sent resp c =
          ({ c with sent := parseSentEntries pl }, parseSentEntries pl)) ∧
      ((pySplitN resp '|' 2).length < 3 →
        sync_inbox resp now c = (c, []) ∧ sync_sent resp c = (c, []))) := by
  refine ⟨?_, ?_, ?_⟩
  · intro hE
    constructor
    · simp [sync_inbox, hE]
    · simp [sync_sent, hE]
  · intro hE hOK
    constructor
    · simp [sync_inbox, hE, hOK]
    · simp [sync_sent, hE, hOK]
  · intro hE hOK
    constructor
    · intro a b pl hsp
      constructor
      · simp [sync_inbox, hE, hOK, hsp]
      · simp [sync_sent, hE, hOK, hsp]
    · intro hlen
      rcases hsp : pySplitN resp '|' 2 with _ | ⟨a, _ | ⟨b, _ | ⟨x, tl⟩⟩⟩
      · exact ⟨by simp [sync_inbox, hE, hOK, hsp], by simp [sync_sent, hE, hOK, hsp]⟩
      · exact ⟨by simp [sync_inbox, hE, hOK, hsp], by simp [sync_sent, hE, hOK, hsp]⟩
      · exact ⟨by simp [sync_inbox, hE, hOK, hsp], by simp [sync_sent, hE, hOK, hsp]⟩
      · rw [hsp] at hlen
        simp at hlen
        omega

/-- Witness for C5 (amended) on the `EMPTY` branch. -/
theorem sync_full_replace_witness :
    sync_inbox "EMPTY|No emails in inbox" "t2"
        ⟨[⟨"9", "mallory", "old", "t0", false⟩], [], none⟩
      = (⟨[], [], some "t2"⟩, []) :=
  ((sync_full_replace_with_stale_fallback "EMPTY|No emails in inbox" "t2"
    ⟨[⟨"9", "mallory", "old", "t0", false⟩], [], none⟩).1 (by decide)).1

/-- C3: READ by the recipient sets the stored message's read flag to
true (idempotently — the flag is set, not toggled, so a second READ
leaves it true), READ by the sender returns the rendered message without
touching the state, and READ by a third party returns Access denied and
leaves the state unchanged. -/
theorem read_marks_read_iff_recipient
    (st : ServerState) (data u s : String) (i : Int) (m : Email)
    (hsplit : pySplit data '|' = ["READ", u, s])
    (hint : pyInt s = .ok i)
    (hfind : st.emails.find? (fun e => e.id == i) = some m) :
    (u ≠ m.«to» → u ≠ m.«from» →
      handle_read data st = (st, "ERROR|Access denied")) ∧
    (u = m.«to» →
      (handle_read data st).1.emails = markRead i st.emails ∧
      (handle_read data st).1.emails.find? (fun e => e.id == i) =
        some { m with read := true } ∧
      (handle_read data st).2 = "OK|" ++ toString m.id ++ "|" ++ m.«from» ++ "|"
        ++ m.«to» ++ "|" ++ m.subject ++ "|" ++ m.body ++ "|" ++ m.timestamp) ∧
    (u ≠ m.«to» → u = m.«from» →
      handle_read data st = (st, "OK|" ++ toString m.id ++ "|" ++ m.«from» ++ "|"
        ++ m.«to» ++ "|" ++ m.subject ++ "|" ++ m.body ++ "|" ++ m.timestamp)) := by
  refine ⟨?_, ?_, ?_⟩
  · intro h1 h2
    have hcond : m.«to» ≠ u ∧ m.«from» ≠ u := ⟨Ne.symm h1, Ne.symm h2⟩
    simp only [handle_read, hsplit, hint, hfind, if_pos hcond]
  · intro h
    have hcond : ¬(m.«to» ≠ u ∧ m.«from» ≠ u) := fun hc => hc.1 h.symm
    refine ⟨?_, ?_, ?_⟩
    · simp only [handle_read, hsplit, hint, hfind, if_neg hcond,
        if_pos h.symm, save_server_data]
    · simp only [handle_read, hsplit, hint, hfind, if_neg hcond,
        if_pos h.symm, save_server_data]
      exact find?_markRead i st.emails m hfind
    · simp only [handle_read, hsplit, hint, hfind, if_neg hcond, if_pos h.symm]
  · intro h1 h2
    have hcond : ¬(m.«to» ≠ u ∧ m.«from» ≠ u) := fun hc => hc.2 h2.symm
    have hto : ¬(m.«to» = u) := fun hh => h1 (Eq.symm hh)
    simp only [handle_read, hsplit, hint, hfind, if_neg hcond, if_neg hto]

/-- Witness for C3: bob (the recipient) reads message 1. -/
theorem read_marks_read_iff_recipient_witness :
    (handle_read "READ|bob|1"
        ⟨[("alice", "pw1"), ("bob", "pw2")],
         [⟨1, "alice", "bob", "Hi", "Hello", "t3", false⟩], 1, 0, []⟩).1.emails.find?
      (fun e => e.id == 1) = some ⟨1, "alice", "bob", "Hi", "Hello", "t3", true⟩ ∧
    (handle_read "READ|bob|1"
        ⟨[("alice", "pw1"), ("bob", "pw2")],
         [⟨1, "alice", "bob", "Hi", "Hello", "t3", false⟩], 1, 0, []⟩).2
      = "OK|1|alice|bob|Hi|Hello|t3" := by
  have h := (read_marks_read_iff_recipient
    ⟨[("alice", "pw1"), ("bob", "pw2")],
     [⟨1, "alice", "bob", "Hi", "Hello", "t3", false⟩], 1, 0, []⟩
    "READ|bob|1" "bob" "1" 1 ⟨1, "alice", "bob", "Hi", "Hello", "t3", false⟩
    (by decide) (by rfl) (by decide)).2.1 rfl
  refine ⟨h.2.1, ?_⟩
  rw [h.2.2]
  decide

/-- C7: FORWARD of a message readable by `u` to a registered recipient
`r` appends exactly one new message — sender `u` (the forwarder), subject
`FWD: ` + original subject, body prefixed with an attribution line
quoting the original sender — leaving every stored message (in
particular the original) unchanged; FORWARD to an unregistered recipient
returns `ERROR|Recipient not found` and changes nothing. -/
theorem forward_creates_attributed_copy
    (st : ServerState) (data now u s r : String) (i : Int) (m : Email)
    (hsplit : pySplit data '|' = ["FORWARD", u, s, r])
    (hint : pyInt s = .ok i)
    (hfind : st.emails.find? (fun e => e.id == i) = some m)
    (hacc : m.«to» = u ∨ m.«from» = u) :
    (userExists st.users r = true →
      (handle_forward data now st).1.emails = st.emails ++
        [⟨st.email_id_counter + 1, u, r, "FWD: " ++ m.subject,
          "[Forwarded from " ++ m.«from» ++ "]\n\n" ++ m.body, now, false⟩] ∧
      (handle_forward data now st).1.email_id_counter = st.email_id_counter + 1 ∧
      (handle_forward data now st).1.users = st.users ∧
      (handle_forward data now st).1.saveLog = st.saveLog ∧
      (handle_forward data now st).2 = "OK|Email forwarded to " ++ r) ∧
    (userExists st.users r = false →
      handle_forward data now st = (st, "ERROR|Recipient not found")) := by
  have hcond : ¬(m.«to» ≠ u ∧ m.«from» ≠ u) := by
    rcases hacc with h | h
    · exact fun hc => hc.1 h
    · exact fun hc => hc.2 h
  constructor
  · intro hr
    refine ⟨?_, ?_, ?_, ?_, ?_⟩ <;>
      simp only [handle_forward, hsplit, hint, hfind, if_neg hcond, hr,
        Bool.not_true, Bool.false_eq_true, if_false]
  · intro hr
    simp only [handle_forward, hsplit, hint, hfind, if_neg hcond, hr,
      Bool.not_false, if_true]

/-- Witness for C7: bob forwards message 1 to carol (registered). -/
theorem forward_creates_attributed_copy_witness :
    (handle_forward "FORWARD|bob|1|carol" "t5"
        ⟨[("alice", "pw1"), ("bob", "pw2"), ("carol", "pw3")],
         [⟨1, "alice", "bob", "Hi", "Hello", "t3", false⟩], 1, 0, []⟩).1.emails
      = [⟨1, "alice", "bob", "Hi", "Hello", "t3", false⟩,
         ⟨2, "bob", "carol", "FWD: Hi", "[Forwarded from alice]\n\nHello",
          "t5", false⟩] := by
  have h := ((forward_creates_attributed_copy
    ⟨[("alice", "pw1"), ("bob", "pw2"), ("carol", "pw3")],
     [⟨1, "alice", "bob", "Hi", "Hello", "t3", false⟩], 1, 0, []⟩
    "FORWARD|bob|1|carol" "t5" "bob" "1" "carol" 1
    ⟨1, "alice", "bob", "Hi", "Hello", "t3", false⟩
    (by decide) (by rfl) (by decide) (Or.inl rfl)).1 (by decide)).1
  rw [h]
  decide

theorem pySplitN_register (u p : String) (hu : '|' ∉ u.data) (hp : '|' ∈ p.data) :
    pySplitN ("REGISTER|" ++ u ++ "|" ++ p) '|' 2 = ["REGISTER", u, p] := by
  have hdata : ("REGISTER|" ++ u ++ "|" ++ p).data =
      "REGISTER".data ++ '|' :: (u.data ++ '|' :: p.data) := by
    simp only [String.data_append, List.append_assoc]
    rfl
  have hsc : splitChar '|' (("REGISTER|" ++ u ++ "|" ++ p).data) =
      "REGISTER".data :: u.data :: splitChar '|' p.data := by
    rw [hdata, splitChar_append_sep _ _ _ (by decide),
      splitChar_append_sep _ _ _ hu]
  have h2 := two_le_splitChar_length '|' p.data hp
  have hlen : ¬((splitChar '|' (("REGISTER|" ++ u ++ "|" ++ p).data)).length ≤ 2 + 1) := by
    rw [hsc]
    simp only [List.length_cons]
    omega
  simp only [pySplitN, if_neg hlen, hsc]
  simp only [List.take_succ_cons, List.take_zero, List.drop_succ_cons,
    List.drop_zero, List.map_cons, List.map_nil, joinChar_splitChar,
    string_mk_data]
  rw [if_neg (by simp only [List.length_cons]; omega)]
  rfl

theorem login_split_at_least_four (u p : String) (hu : '|' ∉ u.data)
    (hp : '|' ∈ p.data) :
    ∃ z w tl, pySplit ("LOGIN|" ++ u ++ "|" ++ p) '|' =
      "LOGIN" :: u :: z :: w :: tl := by
  have hdata : ("LOGIN|" ++ u ++ "|" ++ p).data =
      "LOGIN".data ++ '|' :: (u.data ++ '|' :: p.data) := by
    simp only [String.data_append, List.append_assoc]
    rfl
  have hsc : splitChar '|' (("LOGIN|" ++ u ++ "|" ++ p).data) =
      "LOGIN".data :: u.data :: splitChar '|' p.data := by
    rw [hdata, splitChar_append_sep _ _ _ (by decide),
      splitChar_append_sep _ _ _ hu]
  have h2 := two_le_splitChar_length '|' p.data hp
  rcases hq : splitChar '|' p.data with _ | ⟨q0, _ | ⟨q1, qtl⟩⟩
  · rw [hq] at h2; simp at h2
  · rw [hq] at h2; simp at h2
  · refine ⟨String.mk q0, String.mk q1, qtl.map String.mk, ?_⟩
    rw [pySplit, hsc, hq]
    simp [string_mk_data]

/-- C10: a password containing `|` registers fine (REGISTER splits with
maxsplit 2, so the whole remainder including its pipes is stored
verbatim as the password), but LOGIN splits unbounded and demands
exactly 3 fields, so the login command carrying that same password is
rejected as `ERROR|Invalid LOGIN format` in every server state — the
account can never authenticate. -/
theorem piped_password_registers_but_cannot_login
    (u p : String) (st : ServerState)
    (hu : '|' ∉ u.data) (hp : '|' ∈ p.data)
    (hfresh : userExists st.users u = false) :
    (handle_register ("REGISTER|" ++ u ++ "|" ++ p) st).1.users
      = st.users ++ [(u, p)] ∧
    (handle_register ("REGISTER|" ++ u ++ "|" ++ p) st).2
      = "OK|User " ++ u ++ " registered successfully" ∧
    ∀ st2 : ServerState,
      (handle_login ("LOGIN|" ++ u ++ "|" ++ p) st2).2
        = "ERROR|Invalid LOGIN format" := by
  have hreg := pySplitN_register u p hu hp
  refine ⟨?_, ?_, ?_⟩
  · simp [handle_register, hreg, hfresh, save_server_data]
  · simp [handle_register, hreg, hfresh, save_server_data]
  · intro st2
    obtain ⟨z, w, tl, hlg⟩ := login_split_at_least_four u p hu hp
    simp [handle_login, hlg]

/-- Witness for C10 at `u = "eve"`, `p = "pw|x"`. -/
theorem piped_password_witness :
    (handle_register ("REGISTER|" ++ "eve" ++ "|" ++ "pw|x") initialState).1.users
      = [] ++ [("eve", "pw|x")] ∧
    (handle_login ("LOGIN|" ++ "eve" ++ "|" ++ "pw|x") initialState).2
      = "ERROR|Invalid LOGIN format" := by
  have h := piped_password_registers_but_cannot_login "eve" "pw|x" initialState
    (by decide) (by decide) (by decide)
  exact ⟨h.1, h.2.2 initialState⟩

/-- C6: `process_command` is total (it is a function returning a
response for every input) and never leaks an exception: empty input
yields `ERROR|Empty command`, an unrecognized verb yields
`ERROR|Unknown command '<verb>'`, the one exception source inside the
handlers (`int()` on a malformed id, in READ/DELETE/FORWARD/EXPORT) is
rendered as `ERROR|<message>`, and every response's first token is
`OK`, `ERROR` or `EMPTY`. -/
theorem process_command_total_and_structured (data now : String) (st : ServerState) :
    (data = "" → (process_command data now st).2 = "ERROR|Empty command") ∧
    (data ≠ "" →
      (pySplit data '|').headD "" ∉
        (["REGISTER", "LOGIN", "SEND", "INBOX", "SENT", "READ", "DELETE",
          "FORWARD", "EXPORT", "STATUS"] : List String) →
      (process_command data now st).2 =
        "ERROR|Unknown command '" ++ (pySplit data '|').headD "" ++ "'") ∧
    (∀ u s msg, pySplit data '|' = ["READ", u, s] → pyInt s = .error msg →
      (process_command data now st).2 = "ERROR|" ++ msg) ∧
    (∀ u s msg, pySplit data '|' = ["DELETE", u, s] → pyInt s = .error msg →
      (process_command data now st).2 = "ERROR|" ++ msg) ∧
    (∀ u s r msg, pySplit data '|' = ["FORWARD", u, s, r] → pyInt s = .error msg →
      (process_command data now st).2 = "ERROR|" ++ msg) ∧
    (∀ u s msg, pySplit data '|' = ["EXPORT", u, s] → pyInt s = .error msg →
      (process_command data now st).2 = "ERROR|" ++ msg) ∧
    GoodResp (process_command data now st).2 := by
  refine ⟨?_, ?_, ?_, ?_, ?_, ?_, good_process data now st⟩
  · intro h
    simp [process_command, h]
  · intro hdata hnot
    simp only [List.mem_cons, List.not_mem_nil, or_false, not_or] at hnot
    simp only [process_command, if_neg hdata]
    rw [if_neg hnot.1, if_neg hnot.2.1, if_neg hnot.2.2.1, if_neg hnot.2.2.2.1,
      if_neg hnot.2.2.2.2.1, if_neg hnot.2.2.2.2.2.1, if_neg hnot.2.2.2.2.2.2.1,
      if_neg hnot.2.2.2.2.2.2.2.1, if_neg hnot.2.2.2.2.2.2.2.2.1,
      if_neg hnot.2.2.2.2.2.2.2.2.2]
  · intro u s msg hsplit herr
    have hdata : data ≠ "" := by
      intro h0
      rw [h0] at hsplit
      simp [pySplit, splitChar] at hsplit
    have hcmd : (pySplit data '|').headD "" = "READ" := by rw [hsplit]; rfl
    simp only [process_command, if_neg hdata, hcmd]
    rw [if_neg (by decide), if_neg (by decide), if_neg (by decide),
      if_neg (by decide), if_neg (by decide), if_pos trivial]
    simp only [handle_read, hsplit, herr]
  · intro u s msg hsplit herr
    have hdata : data ≠ "" := by
      intro h0
      rw [h0] at hsplit
      simp [pySplit, splitChar] at hsplit
    have hcmd : (pySplit data '|').headD "" = "DELETE" := by rw [hsplit]; rfl
    simp only [process_command, if_neg hdata, hcmd]
    rw [if_neg (by decide), if_neg (by decide), if_neg (by decide),
      if_neg (by decide), if_neg (by decide), if_neg (by decide), if_pos trivial]
    simp only [handle_delete, hsplit, herr]
  · intro u s r msg hsplit herr
    have hdata : data ≠ "" := by
      intro h0
      rw [h0] at hsplit
      simp [pySplit, splitChar] at hsplit
    have hcmd : (pySplit data '|').headD "" = "FORWARD" := by rw [hsplit]; rfl
    simp only [process_command, if_neg hdata, hcmd]
    rw [if_neg (by decide), if_neg (by decide), if_neg (by decide),
      if_neg (by decide), if_neg (by decide), if_neg (by decide),
      if_neg (by decide), if_pos trivial]
    simp only [handle_forward, hsplit, herr]
  · intro u s msg hsplit herr
    have hdata : data ≠ "" := by
      intro h0
      rw [h0] at hsplit
      simp [pySplit, splitChar] at hsplit
    have hcmd : (pySplit data '|').headD "" = "EXPORT" := by rw [hsplit]; rfl
    simp only [process_command, if_neg hdata, hcmd]
    rw [if_neg (by decide), if_neg (by decide), if_neg (by decide),
      if_neg (by decide), if_neg (by decide), if_neg (by decide),
      if_neg (by decide), if_neg (by decide), if_pos trivial]
    simp only [handle_export, hsplit, herr]

/-- Witness for C6: the empty command, an unknown verb, and a READ with
a malformed id. -/
theorem process_command_total_witness :
    (process_command "" "t" initialState).2 = "ERROR|Empty command" ∧
    (process_command "BOGUS|x" "t" initialState).2 = "ERROR|Unknown command 'BOGUS'" ∧
    (process_command "READ|bob|zzz" "t" initialState).2 =
      "ERROR|" ++ "invalid literal for int() with base 10: 'zzz'" := by
  refine ⟨(process_command_total_and_structured "" "t" initialState).1 rfl, ?_, ?_⟩
  · have h := (process_command_total_and_structured "BOGUS|x" "t" initialState).2.1
      (by decide) (by decide)
    rw [h]
    decide
  · exact (process_command_total_and_structured "READ|bob|zzz" "t"
      initialState).2.2.1 "bob" "zzz" _ (by decide) (by rfl)

/-- C4: in every state reachable from a fresh start, stored message ids
strictly increase in creation (list) order and never exceed the id
counter; the counter never decreases over any further commands; and any
message a step puts in the store under an id not already present carries
an id strictly greater than the current counter — hence strictly greater
than every id ever assigned before, even after deletions. -/
theorem message_ids_strictly_increasing_never_reused
    (h : List (String × String)) :
    List.Pairwise (· < ·) (idsOf (runCommands initialState h)) ∧
    (∀ e ∈ (runCommands initialState h).emails,
      e.id ≤ (runCommands initialState h).email_id_counter) ∧
    (∀ h2, (runCommands initialState h).email_id_counter ≤
      (runCommands (runCommands initialState h) h2).email_id_counter) ∧
    (∀ data now e,
      e ∈ (process_command data now (runCommands initialState h)).1.emails →
      e.id ∉ idsOf (runCommands initialState h) →
      (runCommands initialState h).email_id_counter < e.id) := by
  have hinv := MailInv_run h initialState MailInv_initial
  refine ⟨hinv.1, hinv.2, fun h2 => counter_le_run h2 _, ?_⟩
  intro data now e hmem hnot
  rcases effect_process data now (runCommands initialState h) with
    ⟨he, _⟩ | ⟨j, he, _⟩ | ⟨j, he, _⟩ | ⟨enew, he, hid, _⟩
  · exact absurd (List.mem_map_of_mem Email.id (he ▸ hmem)) hnot
  · rw [he] at hmem
    obtain ⟨e0, he0, hideq⟩ := mem_markRead_id j _ e hmem
    exact absurd (hideq ▸ List.mem_map_of_mem Email.id he0) hnot
  · rw [he] at hmem
    exact absurd
      (List.mem_map_of_mem Email.id ((removeFirstId_sublist j _).subset hmem)) hnot
  · rw [he] at hmem
    rcases List.mem_append.mp hmem with hold | hnew
    · exact absurd (List.mem_map_of_mem Email.id hold) hnot
    · simp only [List.mem_singleton] at hnew
      rw [hnew, hid]
      omega

/-- Witness for C4: after registering bob, a SEND creates message 1,
which was not present before and exceeds the counter 0. -/
theorem message_ids_witness :
    (runCommands initialState [("REGISTER|bob|pw", "t1")]).email_id_counter
      < (1 : Int) :=
  (message_ids_strictly_increasing_never_reused
    [("REGISTER|bob|pw", "t1")]).2.2.2 "SEND|alice|bob|Hi|Yo" "t2"
    ⟨1, "alice", "bob", "Hi", "Yo", "t2", false⟩ (by decide) (by decide)

theorem ne_ok_of_head_E (s : String) (hE : s.data.head? = some 'E') :
    ∀ t : String, s ≠ "OK" ++ t := by
  intro t heq
  rw [heq] at hE
  have hO : (some 'O' : Option Char) = some 'E' := hE
  simp at hO

/-- C8: once a DELETE of id `i` has succeeded (returned an OK response)
in a reachable state, a READ of `i` — by any user, after any further
sequence of commands including SENDs and FORWARDs — returns
`ERROR|Email not found`: the id is gone and is never reassigned. -/
theorem delete_then_read_not_found
    (h : List (String × String)) (dataDel u s : String) (i : Int)
    (hsplit : pySplit dataDel '|' = ["DELETE", u, s])
    (hint : pyInt s = .ok i)
    (hok : ∃ t, (handle_delete dataDel (runCommands initialState h)).2 = "OK" ++ t) :
    ∀ (h2 : List (String × String)) (dataRead v s2 : String),
      pySplit dataRead '|' = ["READ", v, s2] → pyInt s2 = .ok i →
      (handle_read dataRead
          (runCommands (handle_delete dataDel (runCommands initialState h)).1 h2)).2
        = "ERROR|Email not found" := by
  have hinv := MailInv_run h initialState MailInv_initial
  intro h2 dataRead v s2 hsplit2 hint2
  cases hfind : (runCommands initialState h).emails.find? (fun e => e.id == i) with
  | none =>
    simp only [handle_delete, hsplit, hint, hfind] at hok
    obtain ⟨t, ht⟩ := hok
    exact absurd ht (ne_ok_of_head_E _ (by rfl) t)
  | some email =>
    by_cases hacc : email.«to» ≠ u ∧ email.«from» ≠ u
    · simp only [handle_delete, hsplit, hint, hfind, if_pos hacc] at hok
      obtain ⟨t, ht⟩ := hok
      exact absurd ht (ne_ok_of_head_E _ (by rfl) t)
    · have hid : email.id = i := by
        have hpred := List.find?_some hfind
        simpa using hpred
      have hmem : email ∈ (runCommands initialState h).emails :=
        List.mem_of_find?_eq_some hfind
      have hle : i ≤ (runCommands initialState h).email_id_counter :=
        hid ▸ hinv.2 email hmem
      simp only [handle_delete, hsplit, hint, hfind, if_neg hacc]
      have hnoid1 : NoId i (save_server_data
          { runCommands initialState h with
            emails := removeFirstId i (runCommands initialState h).emails }) := by
        refine ⟨?_, hle⟩
        exact removeFirstId_all_ne i (runCommands initialState h).emails hinv.1
      have hnoid2 := NoId_run i h2 _ hnoid1
      simp only [handle_read, hsplit2, hint2,
        find?_eq_none_of_all_ne i _ hnoid2.1]

/-- Witness for C8: bob deletes message 1; after an intervening SEND,
reading id 1 still reports Email not found. -/
theorem delete_then_read_not_found_witness :
    (handle_read "READ|bob|1"
        (runCommands
          (handle_delete "DELETE|bob|1"
            (runCommands initialState
              [("REGISTER|alice|pw1", "t1"), ("REGISTER|bob|pw2", "t2"),
               ("SEND|alice|bob|Hi|Hello", "t3")])).1
          [("SEND|alice|bob|Again|Yo", "t4")])).2
      = "ERROR|Email not found" :=
  delete_then_read_not_found
    [("REGISTER|alice|pw1", "t1"), ("REGISTER|bob|pw2", "t2"),
     ("SEND|alice|bob|Hi|Hello", "t3")]
    "DELETE|bob|1" "bob" "1" 1 (by decide) (by rfl)
    ⟨"|Email #1 deleted", by decide⟩
    [("SEND|alice|bob|Again|Yo", "t4")] "READ|bob|1" "bob" "1"
    (by decide) (by rfl)
